import Mathlib

/-!
Shallow embedding of `download_classroom_files.py` (gcr-downloader).

Python strings are modelled as lists of characters (`Str`), bytes as `Nat`
values below 256, and codepoints as `Nat`.  Each definition is translated
from the source file; line numbers refer to `src/download_classroom_files.py`.
-/

abbrev Str := List Char

/-- Python `str.strip()` whitespace test, restricted to the ASCII whitespace
characters (space, tab, newline, carriage return, vertical tab, form feed). -/
def pyWsChar (c : Char) : Bool := [' ', '\t', '\n', '\r', '\x0b', '\x0c'].contains c

/-- Python `s.strip()`: remove leading and trailing whitespace. -/
def pyStrip (s : Str) : Str := ((s.dropWhile pyWsChar).reverse.dropWhile pyWsChar).reverse

/-- The character class of `re.sub(r'[<>:"/\\|?*]', '_', ...)` (line 116). -/
def illegalFsChar (c : Char) : Bool := ['<', '>', ':', '"', '/', '\\', '|', '?', '*'].contains c

/-- One character of the sanitizing substitution on line 116. -/
def sanitizeChar (c : Char) : Char := if illegalFsChar c then '_' else c

/-- `re.match(r'^(\d+)\.', file_name.strip())` (line 122): the maximal leading
run of digits of the stripped filename, provided it is nonempty and is
immediately followed by a literal dot. -/
def moduleOfFileName (fn : Str) : Option Str :=
  let t := pyStrip fn
  let ds := t.takeWhile Char.isDigit
  if ds ≠ [] ∧ (t.dropWhile Char.isDigit).head? = some ('.') then some ds else none

/-- The fallback branch of `get_folder_name_from_title` (lines 119-128):
derive a folder name from the filename, or the fixed label. -/
def folderFromFileName (fn : Str) : Str :=
  if fn ≠ [] ∧ pyStrip fn ≠ [] then
    match moduleOfFileName fn with
    | some ds => ("Module ").toList ++ ds
    | none => ("Other_Materials").toList
  else ("Other_Materials").toList

/-- `get_folder_name_from_title` (lines 112-128). -/
def get_folder_name_from_title (parent_title : Option Str) (file_name : Str) : Str :=
  match parent_title with
  | some t =>
    if pyStrip t ≠ [] then (pyStrip t).map sanitizeChar
    else folderFromFileName file_name
  | none => folderFromFileName file_name

/- ### Link decoder (lines 54-64) -/

/-- The character class `[A-Za-z0-9_-]` of the pattern on line 56. -/
def b64UrlChar (c : Char) : Bool := c.isAlpha || c.isDigit || c == '_' || c == '-'

/-- Whether the pattern `/c/([A-Za-z0-9_-]+)` matches at the head of the
list: a literal `/c/` followed by at least one class character. -/
def headMatch : Str → Bool
  | '/' :: 'c' :: '/' :: d :: _ => b64UrlChar d
  | _ => false

/-- `re.search(r"/c/([A-Za-z0-9_-]+)", link)` (line 56): the leftmost match,
returning the captured group — the maximal class-character run after `/c/`. -/
def findSeg : Str → Option Str
  | [] => none
  | c :: rest =>
    if headMatch (c :: rest) then some ((rest.drop 2).takeWhile b64UrlChar)
    else findSeg rest

/-- Whether the pattern matches at offset `i` of the link. -/
def matchAt (l : Str) (i : Nat) : Bool := headMatch (l.drop i)

/-- The standard base64 alphabet, in value order. -/
def B64ALPHA : Str :=
  ("ABCDEFGHIJKLMNOPQRSTUVWXYZabcdefghijklmnopqrstuvwxyz0123456789+/").toList

/-- Membership in the standard base64 alphabet. -/
def b64StdChar (c : Char) : Bool := decide (c ∈ B64ALPHA)

/-- The 6-bit value of a standard-alphabet character. -/
def b64Val (c : Char) : Nat := B64ALPHA.findIdx (fun x => x == c)

/-- The standard-alphabet character of a 6-bit value. -/
def b64Char (n : Nat) : Char := B64ALPHA.getD n ('?')

/-- The three bytes of a 24-bit group. -/
def quadBytes (n : Nat) : List Nat := [n / 65536 % 256, n / 256 % 256, n % 256]

/-- Decode full 4-character base64 groups into 3 bytes each. -/
def b64Quads : Str → List Nat
  | a :: b :: c :: d :: rest =>
    quadBytes (b64Val a * 262144 + b64Val b * 4096 + b64Val c * 64 + b64Val d) ++ b64Quads rest
  | _ => []

/-- Python `base64.b64decode` with the default `validate=False`, restricted
to inputs containing no `'='` padding character (guaranteed here: the input
is the regex-captured segment, whose alphabet is `[A-Za-z0-9_-]`): characters
outside the standard alphabet are discarded, then the remaining length must
be a multiple of 4 (otherwise `binascii.Error`, surfaced as the `except`
branch of line 63). -/
def pyB64Decode (s : Str) : Option (List Nat) :=
  let ds := s.filter b64StdChar
  if ds.length % 4 = 0 then some (b64Quads ds) else none

/-- The four alphabet characters of a 24-bit group. -/
def encodeTriple (n : Nat) : Str :=
  [b64Char (n / 262144 % 64), b64Char (n / 4096 % 64), b64Char (n / 64 % 64), b64Char (n % 64)]

/-- Standard base64 encoding of a byte list whose length is a multiple of 3
(no padding needed) — used to state the decoder round trip. -/
def b64Encode : List Nat → Str
  | x :: y :: z :: rest => encodeTriple (x * 65536 + y * 256 + z) ++ b64Encode rest
  | _ => []

/-- Whether a byte is a UTF-8 continuation byte `10xxxxxx`. -/
def utf8Cont (b : Nat) : Bool := decide (128 ≤ b) && decide (b < 192)

/-- Finish a two-byte UTF-8 sequence given the decoded remainder. -/
def utf8Two (b b1 : Nat) (rec : Option (List Nat)) : Option (List Nat) :=
  if utf8Cont b1 then rec.map (fun cs => ((b - 192) * 64 + (b1 - 128)) :: cs) else none

/-- Finish a three-byte UTF-8 sequence given the decoded remainder: the
codepoint must be at least U+0800 (no overlong form) and not a surrogate. -/
def utf8Three (b b1 b2 : Nat) (rec : Option (List Nat)) : Option (List Nat) :=
  if utf8Cont b1 && utf8Cont b2 then
    if 2048 ≤ (b - 224) * 4096 + (b1 - 128) * 64 + (b2 - 128) ∧
        ((b - 224) * 4096 + (b1 - 128) * 64 + (b2 - 128) < 55296 ∨
          57344 ≤ (b - 224) * 4096 + (b1 - 128) * 64 + (b2 - 128)) then
      rec.map (fun cs => ((b - 224) * 4096 + (b1 - 128) * 64 + (b2 - 128)) :: cs)
    else none
  else none

/-- Finish a four-byte UTF-8 sequence given the decoded remainder: the
codepoint must lie in U+10000..U+10FFFF. -/
def utf8Four (b b1 b2 b3 : Nat) (rec : Option (List Nat)) : Option (List Nat) :=
  if utf8Cont b1 && utf8Cont b2 && utf8Cont b3 then
    if 65536 ≤ (b - 240) * 262144 + (b1 - 128) * 4096 + (b2 - 128) * 64 + (b3 - 128) ∧
        (b - 240) * 262144 + (b1 - 128) * 4096 + (b2 - 128) * 64 + (b3 - 128) ≤ 1114111 then
      rec.map (fun cs => ((b - 240) * 262144 + (b1 - 128) * 4096 + (b2 - 128) * 64 + (b3 - 128))
        :: cs)
    else none
  else none

/-- Strict UTF-8 decoding of a byte list to a codepoint list, as Python
`bytes.decode("utf-8")`: rejects stray continuation bytes, overlong forms,
surrogates, codepoints above U+10FFFF and truncated sequences. -/
def utf8Decode : List Nat → Option (List Nat)
  | [] => some []
  | b :: bs =>
    if b < 128 then (utf8Decode bs).map (fun cs => b :: cs)
    else if b < 194 then none
    else
      match bs with
      | [] => none
      | b1 :: bs2 =>
        if b < 224 then utf8Two b b1 (utf8Decode bs2)
        else
          match bs2 with
          | [] => none
          | b2 :: bs3 =>
            if b < 240 then utf8Three b b1 b2 (utf8Decode bs3)
            else
              match bs3 with
              | [] => none
              | b3 :: bs4 =>
                if b < 245 then utf8Four b b1 b2 b3 (utf8Decode bs4) else none

/-- UTF-8 encoding of one codepoint — used to state the decoder round trip. -/
def utf8EncodeChar (c : Nat) : List Nat :=
  if c < 128 then [c]
  else if c < 2048 then [192 + c / 64, 128 + c % 64]
  else if c < 65536 then [224 + c / 4096, 128 + c / 64 % 64, 128 + c % 64]
  else [240 + c / 262144, 128 + c / 4096 % 64, 128 + c / 64 % 64, 128 + c % 64]

/-- UTF-8 encoding of a codepoint list. -/
def utf8Encode : List Nat → List Nat
  | [] => []
  | c :: cs => utf8EncodeChar c ++ utf8Encode cs

/-- The two `ValueError` kinds of `extract_course_id` (lines 58 and 64). -/
inductive LinkError
  | invalidLink
  | decodeError
  deriving DecidableEq

/-- `extract_course_id` (lines 54-64): find the `/c/<segment>`, base64-decode
the segment the way Python does, then UTF-8-decode the bytes. -/
def extract_course_id (classroom_link : Str) : Except LinkError Str :=
  match findSeg classroom_link with
  | none => Except.error LinkError.invalidLink
  | some seg =>
    match pyB64Decode seg with
    | none => Except.error LinkError.decodeError
    | some bs =>
      match utf8Decode bs with
      | none => Except.error LinkError.decodeError
      | some cps => Except.ok (cps.map Char.ofNat)

/- ### Error model -/

/-- The Python exception kinds relevant to this program; all of them are
subclasses of `Exception` (so `except Exception` catches each of them),
while `sys.exit` raises `SystemExit`, which is not. `nameError` stands for
the `UnboundLocalError` raised when an `except` handler reads the unassigned
local `file_path`. -/
inductive PyExc
  | fileNotFound
  | valueError
  | permissionError
  | osError
  | nameError
  | httpError
  deriving DecidableEq

/- ### Filesystem model and the file downloader (lines 83-110) -/

/-- A filesystem entry: a regular file with its byte content, or a directory. -/
inductive Entry
  | file (content : List Nat)
  | dir
  deriving DecidableEq

/-- A filesystem: an association of paths to entries (later bindings win). -/
abbrev FS := List (Str × Entry)

/-- Look up the entry at a path. -/
def FS.find : FS → Str → Option Entry
  | [], _ => none
  | (p, e) :: rest, q => if p = q then some e else FS.find rest q

/-- `os.path.join` for POSIX paths: an absolute second component replaces the
first; otherwise the components are joined with a `/` unless one is already
present. -/
def pathJoin (a b : Str) : Str :=
  if b.head? = some ('/') then b
  else if a = [] then b
  else if a.getLast? = some ('/') then a ++ b
  else a ++ '/' :: b

/-- `os.makedirs(dir, exist_ok=True)` filesystem effect on success: record
the directory if no entry exists at that path yet. -/
def fsMkdir (fs : FS) (dir : Str) : FS :=
  if (FS.find fs dir).isSome then fs else (dir, Entry.dir) :: fs

/-- Writing a file: bind the path to the given content. -/
def fsWrite (fs : FS) (p : Str) (content : List Nat) : FS := (p, Entry.file content) :: fs

/-- Outcome of one `download_file` call: the resulting filesystem, whether a
remote transfer was attempted, whether the skip branch was taken, and the
exception escaping the call, if any. -/
structure DFResult where
  fs : FS
  transferred : Bool
  skipped : Bool
  raised : Option PyExc
  deriving DecidableEq

/-- The `except` handlers of `download_file` (lines 105-110).  Each handler
prints a message that interpolates `file_path`; if the exception was raised
before line 91 assigned `file_path`, reading it raises `UnboundLocalError`,
which escapes `download_file` (a sibling handler of the same `try` does not
catch an exception raised inside a handler). -/
def dfHandler (fs : FS) (transferred : Bool) (filePathBound : Bool) : DFResult :=
  if filePathBound then ⟨fs, transferred, false, none⟩
  else ⟨fs, transferred, false, some PyExc.nameError⟩

/-- `download_file` (lines 83-110).  `mkdirOutcome` is the environment's
verdict on `os.makedirs` (line 87: `none` = success), `transferOutcome` on
the chunked media download (lines 97-103), and `remote` is the remote file
content.  On a transfer failure the file has already been opened with mode
`wb`, so an empty file exists at the destination. -/
def download_file (fs : FS) (mkdirOutcome : Option PyExc) (transferOutcome : Option PyExc)
    (remote : List Nat) (file_name : Str) (output_dir : Str) : DFResult :=
  match mkdirOutcome with
  | some _ => dfHandler fs false false
  | none =>
    let fs1 := fsMkdir fs output_dir
    if FS.find fs1 output_dir = some Entry.dir then
      if (FS.find fs1 (pathJoin output_dir file_name)).isSome then ⟨fs1, false, true, none⟩
      else
        match transferOutcome with
        | some _ => dfHandler (fsWrite fs1 (pathJoin output_dir file_name) []) true true
        | none => ⟨fsWrite fs1 (pathJoin output_dir file_name) remote, true, false, none⟩
    else dfHandler fs1 false false

/- ### Course data model and folder assignment (lines 154-192) -/

/-- The inner `driveFile` dictionary of a material: a file id and an
optional title. -/
structure DriveFile where
  id : Str
  title : Option Str
  deriving DecidableEq

/-- One element of a group's `materials` list; `driveFile` is absent for
non-file materials (links, forms, videos). -/
structure MaterialRef where
  driveFile : Option DriveFile
  deriving DecidableEq

/-- An announcement or coursework-material item: an optional title and an
optional `materials` list (the key may be absent from the API response). -/
structure ItemGroup where
  title : Option Str
  materials : Option (List MaterialRef)
  deriving DecidableEq

/-- `file.get('title', f"file_{file_id}")` (lines 160, 168, 185). -/
def fileName (f : DriveFile) : Str := f.title.getD (("file_").toList ++ f.id)

/-- `first_file_name` (lines 159-160, 176-177): the display name of the
first material if it is a drive file, else the empty string. -/
def firstFileName : List MaterialRef → Str
  | [] => []
  | m :: _ =>
    match m.driveFile with
    | some f => fileName f
    | none => []

/-- The drive files of a `materials` list, in order (the inner-loop filter
`if 'driveFile' in material`). -/
def driveFiles (ms : List MaterialRef) : List DriveFile := ms.filterMap (fun m => m.driveFile)

/-- The group folder name computed once per group (lines 161, 178):
from the group's title, with the first material's filename as fallback. -/
def annFolder (g : ItemGroup) : Str :=
  get_folder_name_from_title (some (g.title.getD [])) (firstFileName (g.materials.getD []))

/-- The per-item folder recomputation of the coursework loop
(lines 186-190). -/
def cwItemFolder (g : ItemGroup) (f : DriveFile) : Str :=
  if pyStrip (g.title.getD []) ≠ [] then
    get_folder_name_from_title (some (g.title.getD [])) ([])
  else get_folder_name_from_title none (fileName f)

/-- Folder assignment of the announcements loop (lines 156-169): every drive
file of the group goes to the single folder computed once from the group. -/
def announcementAssign (g : ItemGroup) : List (DriveFile × Str) :=
  match g.materials with
  | none => []
  | some ms => (driveFiles ms).map (fun f => (f, annFolder g))

/-- Folder assignment of the coursework-materials loop (lines 173-192): the
folder is recomputed for each drive file. -/
def courseworkAssign (g : ItemGroup) : List (DriveFile × Str) :=
  match g.materials with
  | none => []
  | some ms => (driveFiles ms).map (fun f => (f, cwItemFolder g f))

/- ### Orchestrator (lines 66-81 and 130-200) -/

/-- The environment of one run: everything the program observes from the
outside world — local files, token state, the interactive prompt, and the
outcome of every remote call and filesystem operation.  Exceptions raised by
a step are injected through the corresponding field. -/
structure PyEnv where
  installOk : Bool
  tokenExists : Bool
  tokenValid : Bool
  tokenExpired : Bool
  hasRefreshToken : Bool
  refreshRaises : Option PyExc
  credentialsExists : Bool
  flowRaises : Option PyExc
  tokenWriteRaises : Option PyExc
  buildRaises : Option PyExc
  link : Str
  courseFetch : Except PyExc Str
  announcements : Except PyExc (List ItemGroup)
  courseWorkMaterials : Except PyExc (List ItemGroup)
  fs0 : FS
  mkdirErr : Str → Option PyExc
  transferErr : Str → Option PyExc
  remote : Str → List Nat

/-- `authenticate` (lines 66-81): load `token.json` if present; if the
credentials are missing or invalid, refresh when possible, otherwise run the
interactive flow — which requires `credentials.json` and raises
`FileNotFoundError` when it is absent (line 76); finally persist the token. -/
def authenticate (env : PyEnv) : Except PyExc Unit :=
  if env.tokenExists = false ∨ env.tokenValid = false then
    match
      (if env.tokenExists = true ∧ env.tokenExpired = true ∧ env.hasRefreshToken = true then
        match env.refreshRaises with
        | some e => Except.error e
        | none => Except.ok ()
      else if env.credentialsExists = false then Except.error PyExc.fileNotFound
      else
        match env.flowRaises with
        | some e => Except.error e
        | none => Except.ok ()) with
    | Except.error e => Except.error e
    | Except.ok _ =>
      match env.tokenWriteRaises with
      | some e => Except.error e
      | none => Except.ok ()
  else Except.ok ()

/-- `os.makedirs(dir, exist_ok=True)` as called directly by `main`
(lines 152, 163, 180, 191): the environment decides success or exception. -/
def pyMakedirs (env : PyEnv) (fs : FS) (dir : Str) : Except PyExc FS :=
  match env.mkdirErr dir with
  | some e => Except.error e
  | none => Except.ok (fsMkdir fs dir)

/-- One `download_file` call from `main`'s loops, propagating the exception
that escapes the call, if any. -/
def runDownload (env : PyEnv) (fs : FS) (f : DriveFile) (dir : Str) : Except PyExc FS :=
  match download_file fs (env.mkdirErr dir) (env.transferErr f.id) (env.remote f.id)
      (fileName f) dir with
  | ⟨fs1, _, _, none⟩ => Except.ok fs1
  | ⟨_, _, _, some e⟩ => Except.error e

/-- The inner announcement loop (lines 164-169): download every drive file
of the group into the one folder. -/
def runFiles (env : PyEnv) : FS → List DriveFile → Str → Except PyExc FS
  | fs, [], _ => Except.ok fs
  | fs, f :: rest, dir =>
    match runDownload env fs f dir with
    | Except.error e => Except.error e
    | Except.ok fs1 => runFiles env fs1 rest dir

/-- One announcement group (lines 156-169). -/
def runAnnGroup (env : PyEnv) (root : Str) (fs : FS) (g : ItemGroup) : Except PyExc FS :=
  match g.materials with
  | none => Except.ok fs
  | some ms =>
    match pyMakedirs env fs (pathJoin root (annFolder g)) with
    | Except.error e => Except.error e
    | Except.ok fs1 => runFiles env fs1 (driveFiles ms) (pathJoin root (annFolder g))

/-- The inner coursework loop (lines 181-192): recompute the folder per item,
create it, and download into it. -/
def runCwFiles (env : PyEnv) (root : Str) (g : ItemGroup) : FS → List DriveFile → Except PyExc FS
  | fs, [] => Except.ok fs
  | fs, f :: rest =>
    match pyMakedirs env fs (pathJoin root (cwItemFolder g f)) with
    | Except.error e => Except.error e
    | Except.ok fs1 =>
      match runDownload env fs1 f (pathJoin root (cwItemFolder g f)) with
      | Except.error e => Except.error e
      | Except.ok fs2 => runCwFiles env root g fs2 rest

/-- One coursework group (lines 173-192): the group folder is created first
(lines 178-180), then each item is processed with its recomputed folder. -/
def runCwGroup (env : PyEnv) (root : Str) (fs : FS) (g : ItemGroup) : Except PyExc FS :=
  match g.materials with
  | none => Except.ok fs
  | some ms =>
    match pyMakedirs env fs (pathJoin root (annFolder g)) with
    | Except.error e => Except.error e
    | Except.ok fs1 => runCwFiles env root g fs1 (driveFiles ms)

/-- Fold a per-group step over the group list, stopping at the first
escaping exception. -/
def runGroups (step : FS → ItemGroup → Except PyExc FS) : FS → List ItemGroup → Except PyExc FS
  | fs, [] => Except.ok fs
  | fs, g :: gs =>
    match step fs g with
    | Except.error e => Except.error e
    | Except.ok fs1 => runGroups step fs1 gs

/-- `course['name'].replace(' ', '_').replace('/', '_')` (line 150). -/
def courseDirName (name : Str) : Str :=
  name.map (fun c => if c = ' ' ∨ c = '/' then '_' else c)

/-- The body of `main`'s top-level `try` (lines 132-194), except for
`install_prerequisites`, in the exception monad: any raised exception
propagates to the value.  The inner `try` around the course fetch
(lines 143-148) catches its own failure and returns normally. -/
def mainBody (env : PyEnv) : Except PyExc Unit := do
  let _ ← authenticate env
  let _ ← (match env.buildRaises with
    | some e => Except.error e
    | none => Except.ok ())
  let _ ← (match extract_course_id env.link with
    | Except.error _ => (Except.error PyExc.valueError : Except PyExc Str)
    | Except.ok s => Except.ok s)
  match env.courseFetch with
  | Except.error _ => Except.ok ()
  | Except.ok cname => do
    let fs1 ← pyMakedirs env env.fs0 (courseDirName cname)
    let anns ← env.announcements
    let fs2 ← runGroups (runAnnGroup env (courseDirName cname)) fs1 anns
    let mats ← env.courseWorkMaterials
    let _ ← runGroups (runCwGroup env (courseDirName cname)) fs2 mats
    Except.ok ()

/-- Observable outcome of the whole process. -/
inductive MainOutcome
  | sysExit (code : Nat)
  | normal (caught : Option PyExc)
  | uncaught (e : PyExc)
  deriving DecidableEq

/-- `main` with `install_prerequisites` (lines 23-52, 133): a missing or
failing `pip` ends the process via `sys.exit(1)` — `SystemExit` is not an
`Exception`, so the top-level handler does not catch it; every `PyExc`
raised by the body is caught by `except Exception` (lines 196-197) and
logged, and `main` returns normally. -/
def mainModel (env : PyEnv) : MainOutcome :=
  if env.installOk = false then MainOutcome.sysExit 1
  else
    match mainBody env with
    | Except.error e => MainOutcome.normal (some e)
    | Except.ok _ => MainOutcome.normal none

/- ### Concrete inputs used by witnesses -/

/-- An untitled group with two drive files whose names carry different
module numbers. -/
def gC6w : ItemGroup :=
  ⟨some [],
    some [⟨some ⟨("id1").toList, some (("3.a").toList)⟩⟩,
          ⟨some ⟨("id2").toList, some (("7.b").toList)⟩⟩]⟩

/-- pip available, no persisted token, no `credentials.json`; nothing else
is ever reached. -/
def envC7cex : PyEnv :=
  ⟨true, false, false, false, false, none, false, none, none, none, [],
    Except.error PyExc.httpError, Except.ok [], Except.ok [], [],
    fun _ => none, fun _ => none, fun _ => []⟩

/-- Everything up to the announcements listing succeeds; the announcements
listing raises. -/
def envC8w : PyEnv :=
  ⟨true, true, true, false, false, none, true, none, none, none,
    ("/c/TWpZ").toList, Except.ok (("CS").toList),
    Except.error PyExc.httpError, Except.ok [], [],
    fun _ => none, fun _ => none, fun _ => []⟩

/- ### List helper lemmas -/

theorem takeWhile_all_append (p : Char → Bool) (ds : Str) (c : Char) (rest : Str)
    (h1 : ∀ x ∈ ds, p x = true) (h2 : p c = false) :
    (ds ++ c :: rest).takeWhile p = ds := by
  induction ds with
  | nil => simp [List.takeWhile_cons, h2]
  | cons a as ih =>
    have ha : p a = true := h1 a (by simp)
    simp only [List.cons_append, List.takeWhile_cons, ha, if_true]
    rw [ih (fun x hx => h1 x (by simp [hx]))]

theorem dropWhile_all_append (p : Char → Bool) (ds : Str) (c : Char) (rest : Str)
    (h1 : ∀ x ∈ ds, p x = true) (h2 : p c = false) :
    (ds ++ c :: rest).dropWhile p = c :: rest := by
  induction ds with
  | nil => simp [List.dropWhile_cons, h2]
  | cons a as ih =>
    have ha : p a = true := h1 a (by simp)
    simp only [List.cons_append, List.dropWhile_cons, ha, if_true]
    exact ih (fun x hx => h1 x (by simp [hx]))

theorem mem_takeWhile_sat (p : Char → Bool) :
    ∀ (l : Str) (c : Char), c ∈ l.takeWhile p → p c = true := by
  intro l
  induction l with
  | nil => intro c hc; simp [List.takeWhile] at hc
  | cons a as ih =>
    intro c hc
    rw [List.takeWhile_cons] at hc
    by_cases ha : p a = true
    · rw [if_pos ha] at hc
      rcases List.mem_cons.mp hc with h | h
      · exact h ▸ ha
      · exact ih c h
    · rw [if_neg ha] at hc
      simp at hc

/- ### Link-decoder helper lemmas -/

theorem b64_alpha_roundtrip : (B64ALPHA.all fun c => b64Char (b64Val c) == c) = true := by
  decide

theorem b64_alpha_val_lt : (B64ALPHA.all fun c => decide (b64Val c < 64)) = true := by
  decide

theorem b64Char_b64Val (c : Char) (h : b64StdChar c = true) : b64Char (b64Val c) = c := by
  have hmem : c ∈ B64ALPHA := of_decide_eq_true h
  exact eq_of_beq (List.all_eq_true.mp b64_alpha_roundtrip c hmem)

theorem b64Val_lt (c : Char) (h : b64StdChar c = true) : b64Val c < 64 := by
  have hmem : c ∈ B64ALPHA := of_decide_eq_true h
  exact of_decide_eq_true (List.all_eq_true.mp b64_alpha_val_lt c hmem)

theorem b64Encode_quadBytes (n : Nat) (rest : List Nat) (hn : n < 16777216) :
    b64Encode (quadBytes n ++ rest) = encodeTriple n ++ b64Encode rest := by
  simp only [quadBytes, List.cons_append, List.nil_append, b64Encode]
  have hrec : n / 65536 % 256 * 65536 + n / 256 % 256 * 256 + n % 256 = n := by omega
  rw [hrec]
  simp

theorem b64Encode_quads_aux : ∀ (k : Nat) (ds : Str), ds.length ≤ k →
    (∀ c ∈ ds, b64StdChar c = true) → ds.length % 4 = 0 →
    b64Encode (b64Quads ds) = ds := by
  intro k
  induction k with
  | zero =>
    intro ds hlen _ _
    have : ds = [] := List.eq_nil_of_length_eq_zero (Nat.le_zero.mp hlen)
    subst this; rfl
  | succ k ih =>
    intro ds hlen hall hmod
    rcases ds with _ | ⟨a, ds⟩
    · rfl
    rcases ds with _ | ⟨b, ds⟩
    · simp at hmod
    rcases ds with _ | ⟨c, ds⟩
    · simp at hmod
    rcases ds with _ | ⟨d, rest⟩
    · simp at hmod
    have hva : b64Val a < 64 := b64Val_lt a (hall a (by simp))
    have hvb : b64Val b < 64 := b64Val_lt b (hall b (by simp))
    have hvc : b64Val c < 64 := b64Val_lt c (hall c (by simp))
    have hvd : b64Val d < 64 := b64Val_lt d (hall d (by simp))
    have ihr : b64Encode (b64Quads rest) = rest := by
      apply ih rest
      · simp only [List.length_cons] at hlen; omega
      · intro x hx; exact hall x (by simp [hx])
      · simp only [List.length_cons] at hmod ⊢; omega
    show b64Encode (b64Quads (a :: b :: c :: d :: rest)) = a :: b :: c :: d :: rest
    rw [show b64Quads (a :: b :: c :: d :: rest) =
        quadBytes (b64Val a * 262144 + b64Val b * 4096 + b64Val c * 64 + b64Val d) ++
          b64Quads rest from rfl]
    rw [b64Encode_quadBytes _ _ (by omega), ihr]
    have h1 : (b64Val a * 262144 + b64Val b * 4096 + b64Val c * 64 + b64Val d) / 262144 % 64
        = b64Val a := by omega
    have h2 : (b64Val a * 262144 + b64Val b * 4096 + b64Val c * 64 + b64Val d) / 4096 % 64
        = b64Val b := by omega
    have h3 : (b64Val a * 262144 + b64Val b * 4096 + b64Val c * 64 + b64Val d) / 64 % 64
        = b64Val c := by omega
    have h4 : (b64Val a * 262144 + b64Val b * 4096 + b64Val c * 64 + b64Val d) % 64
        = b64Val d := by omega
    simp only [encodeTriple, h1, h2, h3, h4,
      b64Char_b64Val a (hall a (by simp)), b64Char_b64Val b (hall b (by simp)),
      b64Char_b64Val c (hall c (by simp)), b64Char_b64Val d (hall d (by simp))]
    rfl

theorem b64Encode_quads (ds : Str) (hall : ∀ c ∈ ds, b64StdChar c = true)
    (hmod : ds.length % 4 = 0) : b64Encode (b64Quads ds) = ds :=
  b64Encode_quads_aux ds.length ds le_rfl hall hmod

theorem utf8Cont_iff (x : Nat) : utf8Cont x = true ↔ 128 ≤ x ∧ x < 192 := by
  simp [utf8Cont]

theorem utf8Two_some (b b1 : Nat) (rec : Option (List Nat)) (cps : List Nat)
    (h : utf8Two b b1 rec = some cps) :
    (128 ≤ b1 ∧ b1 < 192) ∧
      ∃ cs, rec = some cs ∧ cps = ((b - 192) * 64 + (b1 - 128)) :: cs := by
  unfold utf8Two at h
  by_cases hc : utf8Cont b1 = true
  · rw [if_pos hc] at h
    rcases rec with _ | cs
    · simp at h
    · refine ⟨(utf8Cont_iff b1).mp hc, cs, rfl, ?_⟩
      have : ((b - 192) * 64 + (b1 - 128)) :: cs = cps := by simpa using h
      exact this.symm
  · rw [if_neg hc] at h
    simp at h

theorem utf8Three_some (b b1 b2 : Nat) (rec : Option (List Nat)) (cps : List Nat)
    (h : utf8Three b b1 b2 rec = some cps) :
    (128 ≤ b1 ∧ b1 < 192) ∧ (128 ≤ b2 ∧ b2 < 192) ∧
      (2048 ≤ (b - 224) * 4096 + (b1 - 128) * 64 + (b2 - 128) ∧
        ((b - 224) * 4096 + (b1 - 128) * 64 + (b2 - 128) < 55296 ∨
          57344 ≤ (b - 224) * 4096 + (b1 - 128) * 64 + (b2 - 128))) ∧
      ∃ cs, rec = some cs ∧ cps = ((b - 224) * 4096 + (b1 - 128) * 64 + (b2 - 128)) :: cs := by
  unfold utf8Three at h
  by_cases hc : (utf8Cont b1 && utf8Cont b2) = true
  · rw [if_pos hc] at h
    rcases Bool.and_eq_true_iff.mp hc with ⟨hc1, hc2⟩
    by_cases hv : 2048 ≤ (b - 224) * 4096 + (b1 - 128) * 64 + (b2 - 128) ∧
        ((b - 224) * 4096 + (b1 - 128) * 64 + (b2 - 128) < 55296 ∨
          57344 ≤ (b - 224) * 4096 + (b1 - 128) * 64 + (b2 - 128))
    · rw [if_pos hv] at h
      rcases rec with _ | cs
      · simp at h
      · refine ⟨(utf8Cont_iff b1).mp hc1, (utf8Cont_iff b2).mp hc2, hv, cs, rfl, ?_⟩
        have : ((b - 224) * 4096 + (b1 - 128) * 64 + (b2 - 128)) :: cs = cps := by simpa using h
        exact this.symm
    · rw [if_neg hv] at h
      simp at h
  · rw [if_neg hc] at h
    simp at h

theorem utf8Four_some (b b1 b2 b3 : Nat) (rec : Option (List Nat)) (cps : List Nat)
    (h : utf8Four b b1 b2 b3 rec = some cps) :
    (128 ≤ b1 ∧ b1 < 192) ∧ (128 ≤ b2 ∧ b2 < 192) ∧ (128 ≤ b3 ∧ b3 < 192) ∧
      (65536 ≤ (b - 240) * 262144 + (b1 - 128) * 4096 + (b2 - 128) * 64 + (b3 - 128) ∧
        (b - 240) * 262144 + (b1 - 128) * 4096 + (b2 - 128) * 64 + (b3 - 128) ≤ 1114111) ∧
      ∃ cs, rec = some cs ∧
        cps = ((b - 240) * 262144 + (b1 - 128) * 4096 + (b2 - 128) * 64 + (b3 - 128)) :: cs := by
  unfold utf8Four at h
  by_cases hc : (utf8Cont b1 && utf8Cont b2 && utf8Cont b3) = true
  · rw [if_pos hc] at h
    rcases Bool.and_eq_true_iff.mp hc with ⟨hc12, hc3⟩
    rcases Bool.and_eq_true_iff.mp hc12 with ⟨hc1, hc2⟩
    by_cases hv : 65536 ≤ (b - 240) * 262144 + (b1 - 128) * 4096 + (b2 - 128) * 64 + (b3 - 128) ∧
        (b - 240) * 262144 + (b1 - 128) * 4096 + (b2 - 128) * 64 + (b3 - 128) ≤ 1114111
    · rw [if_pos hv] at h
      rcases rec with _ | cs
      · simp at h
      · refine ⟨(utf8Cont_iff b1).mp hc1, (utf8Cont_iff b2).mp hc2, (utf8Cont_iff b3).mp hc3,
          hv, cs, rfl, ?_⟩
        have : ((b - 240) * 262144 + (b1 - 128) * 4096 + (b2 - 128) * 64 + (b3 - 128)) :: cs
            = cps := by simpa using h
        exact this.symm
    · rw [if_neg hv] at h
      simp at h
  · rw [if_neg hc] at h
    simp at h

theorem utf8Decode_lt128 (b : Nat) (bs : List Nat) (h : b < 128) :
    utf8Decode (b :: bs) = (utf8Decode bs).map (fun cs => b :: cs) := by
  rcases bs with _ | ⟨b1, bs2⟩
  · rw [utf8Decode.eq_2, if_pos h]
  rcases bs2 with _ | ⟨b2, bs3⟩
  · rw [utf8Decode.eq_3, if_pos h]
  rcases bs3 with _ | ⟨b3, bs4⟩
  · rw [utf8Decode.eq_4, if_pos h]
  · rw [utf8Decode.eq_5, if_pos h]

theorem utf8Decode_invalid_lead (b : Nat) (bs : List Nat) (h1 : ¬ b < 128) (h2 : b < 194) :
    utf8Decode (b :: bs) = none := by
  rcases bs with _ | ⟨b1, bs2⟩
  · rw [utf8Decode.eq_2, if_neg h1, if_pos h2]
  rcases bs2 with _ | ⟨b2, bs3⟩
  · rw [utf8Decode.eq_3, if_neg h1, if_pos h2]
  rcases bs3 with _ | ⟨b3, bs4⟩
  · rw [utf8Decode.eq_4, if_neg h1, if_pos h2]
  · rw [utf8Decode.eq_5, if_neg h1, if_pos h2]

theorem utf8Decode_ge245 (b : Nat) (bs : List Nat) (h1 : ¬ b < 128) (h2 : ¬ b < 194)
    (h3 : ¬ b < 224) (h4 : ¬ b < 240) (h5 : ¬ b < 245) :
    utf8Decode (b :: bs) = none := by
  rcases bs with _ | ⟨b1, bs2⟩
  · rw [utf8Decode.eq_2, if_neg h1, if_neg h2]
  rcases bs2 with _ | ⟨b2, bs3⟩
  · rw [utf8Decode.eq_3, if_neg h1, if_neg h2, if_neg h3]
  rcases bs3 with _ | ⟨b3, bs4⟩
  · rw [utf8Decode.eq_4, if_neg h1, if_neg h2, if_neg h3, if_neg h4]
  · rw [utf8Decode.eq_5, if_neg h1, if_neg h2, if_neg h3, if_neg h4, if_neg h5]

theorem utf8Decode_singleton (b : Nat) (h1 : ¬ b < 128) (h2 : ¬ b < 194) :
    utf8Decode [b] = none := by
  rw [utf8Decode.eq_2, if_neg h1, if_neg h2]

theorem utf8Decode_two_eq (b b1 : Nat) (bs2 : List Nat) (h1 : ¬ b < 128) (h2 : ¬ b < 194)
    (h3 : b < 224) : utf8Decode (b :: b1 :: bs2) = utf8Two b b1 (utf8Decode bs2) := by
  rcases bs2 with _ | ⟨b2, bs3⟩
  · rw [utf8Decode.eq_3, if_neg h1, if_neg h2, if_pos h3]
  rcases bs3 with _ | ⟨b3, bs4⟩
  · rw [utf8Decode.eq_4, if_neg h1, if_neg h2, if_pos h3]
  · rw [utf8Decode.eq_5, if_neg h1, if_neg h2, if_pos h3]

theorem utf8Decode_pair (b b1 : Nat) (h1 : ¬ b < 128) (h2 : ¬ b < 194) (h3 : ¬ b < 224) :
    utf8Decode [b, b1] = none := by
  rw [utf8Decode.eq_3, if_neg h1, if_neg h2, if_neg h3]

theorem utf8Decode_three_eq (b b1 b2 : Nat) (bs3 : List Nat) (h1 : ¬ b < 128) (h2 : ¬ b < 194)
    (h3 : ¬ b < 224) (h4 : b < 240) :
    utf8Decode (b :: b1 :: b2 :: bs3) = utf8Three b b1 b2 (utf8Decode bs3) := by
  rcases bs3 with _ | ⟨b3, bs4⟩
  · rw [utf8Decode.eq_4, if_neg h1, if_neg h2, if_neg h3, if_pos h4]
  · rw [utf8Decode.eq_5, if_neg h1, if_neg h2, if_neg h3, if_pos h4]

theorem utf8Decode_triple (b b1 b2 : Nat) (h1 : ¬ b < 128) (h2 : ¬ b < 194) (h3 : ¬ b < 224)
    (h4 : ¬ b < 240) : utf8Decode [b, b1, b2] = none := by
  rw [utf8Decode.eq_4, if_neg h1, if_neg h2, if_neg h3, if_neg h4]

theorem utf8Decode_four_eq (b b1 b2 b3 : Nat) (bs4 : List Nat) (h1 : ¬ b < 128)
    (h2 : ¬ b < 194) (h3 : ¬ b < 224) (h4 : ¬ b < 240) (h5 : b < 245) :
    utf8Decode (b :: b1 :: b2 :: b3 :: bs4) = utf8Four b b1 b2 b3 (utf8Decode bs4) := by
  rw [utf8Decode.eq_5, if_neg h1, if_neg h2, if_neg h3, if_neg h4, if_pos h5]

theorem utf8_enc_dec_aux : ∀ (k : Nat) (bs : List Nat), bs.length ≤ k →
    ∀ cps, utf8Decode bs = some cps → utf8Encode cps = bs := by
  intro k
  induction k with
  | zero =>
    intro bs hlen cps h
    have hbs : bs = [] := List.eq_nil_of_length_eq_zero (Nat.le_zero.mp hlen)
    subst hbs
    have : cps = [] := by simpa [utf8Decode] using h.symm
    subst this; rfl
  | succ k ih =>
    intro bs hlen cps h
    rcases bs with _ | ⟨b, bs⟩
    · have : cps = [] := by simpa [utf8Decode] using h.symm
      subst this; rfl
    by_cases h1 : b < 128
    · rw [utf8Decode_lt128 b bs h1] at h
      rcases hd : utf8Decode bs with _ | cs
      · rw [hd] at h; simp at h
      · rw [hd] at h
        have hc : b :: cs = cps := by simpa using h
        subst hc
        have ihr := ih bs (by simp at hlen; omega) cs hd
        simp [utf8Encode, utf8EncodeChar, h1, ihr]
    by_cases h2 : b < 194
    · rw [utf8Decode_invalid_lead b bs h1 h2] at h; simp at h
    by_cases h3 : b < 224
    · rcases bs with _ | ⟨b1, bs2⟩
      · rw [utf8Decode_singleton b h1 h2] at h; simp at h
      rw [utf8Decode_two_eq b b1 bs2 h1 h2 h3] at h
      rcases utf8Two_some b b1 _ cps h with ⟨hb1, cs, hd, hcps⟩
      subst hcps
      have ihr := ih bs2 (by simp at hlen; omega) cs hd
      have he1 : ¬ ((b - 192) * 64 + (b1 - 128) < 128) := by omega
      have he2 : (b - 192) * 64 + (b1 - 128) < 2048 := by omega
      have hv1 : 192 + ((b - 192) * 64 + (b1 - 128)) / 64 = b := by omega
      have hv2 : 128 + ((b - 192) * 64 + (b1 - 128)) % 64 = b1 := by omega
      simp only [utf8Encode, utf8EncodeChar, if_neg he1, if_pos he2, hv1, hv2, ihr]
      rfl
    by_cases h4 : b < 240
    · rcases bs with _ | ⟨b1, bs2⟩
      · rw [utf8Decode_singleton b h1 h2] at h; simp at h
      rcases bs2 with _ | ⟨b2, bs3⟩
      · rw [utf8Decode_pair b b1 h1 h2 h3] at h; simp at h
      rw [utf8Decode_three_eq b b1 b2 bs3 h1 h2 h3 h4] at h
      rcases utf8Three_some b b1 b2 _ cps h with ⟨hb1, hb2, hv, cs, hd, hcps⟩
      subst hcps
      have ihr := ih bs3 (by simp at hlen; omega) cs hd
      have he1 : ¬ ((b - 224) * 4096 + (b1 - 128) * 64 + (b2 - 128) < 128) := by omega
      have he2 : ¬ ((b - 224) * 4096 + (b1 - 128) * 64 + (b2 - 128) < 2048) := by omega
      have he3 : (b - 224) * 4096 + (b1 - 128) * 64 + (b2 - 128) < 65536 := by omega
      have hw1 : 224 + ((b - 224) * 4096 + (b1 - 128) * 64 + (b2 - 128)) / 4096 = b := by omega
      have hw2 : 128 + ((b - 224) * 4096 + (b1 - 128) * 64 + (b2 - 128)) / 64 % 64 = b1 := by
        omega
      have hw3 : 128 + ((b - 224) * 4096 + (b1 - 128) * 64 + (b2 - 128)) % 64 = b2 := by omega
      simp only [utf8Encode, utf8EncodeChar, if_neg he1, if_neg he2, if_pos he3,
        hw1, hw2, hw3, ihr]
      rfl
    by_cases h5 : b < 245
    · rcases bs with _ | ⟨b1, bs2⟩
      · rw [utf8Decode_singleton b h1 h2] at h; simp at h
      rcases bs2 with _ | ⟨b2, bs3⟩
      · rw [utf8Decode_pair b b1 h1 h2 h3] at h; simp at h
      rcases bs3 with _ | ⟨b3, bs4⟩
      · rw [utf8Decode_triple b b1 b2 h1 h2 h3 h4] at h; simp at h
      rw [utf8Decode_four_eq b b1 b2 b3 bs4 h1 h2 h3 h4 h5] at h
      rcases utf8Four_some b b1 b2 b3 _ cps h with ⟨hb1, hb2, hb3, hv, cs, hd, hcps⟩
      subst hcps
      have ihr := ih bs4 (by simp at hlen; omega) cs hd
      have he1 : ¬ ((b - 240) * 262144 + (b1 - 128) * 4096 + (b2 - 128) * 64 + (b3 - 128)
          < 128) := by omega
      have he2 : ¬ ((b - 240) * 262144 + (b1 - 128) * 4096 + (b2 - 128) * 64 + (b3 - 128)
          < 2048) := by omega
      have he3 : ¬ ((b - 240) * 262144 + (b1 - 128) * 4096 + (b2 - 128) * 64 + (b3 - 128)
          < 65536) := by omega
      have hw1 : 240 + ((b - 240) * 262144 + (b1 - 128) * 4096 + (b2 - 128) * 64 +
          (b3 - 128)) / 262144 = b := by omega
      have hw2 : 128 + ((b - 240) * 262144 + (b1 - 128) * 4096 + (b2 - 128) * 64 +
          (b3 - 128)) / 4096 % 64 = b1 := by omega
      have hw3 : 128 + ((b - 240) * 262144 + (b1 - 128) * 4096 + (b2 - 128) * 64 +
          (b3 - 128)) / 64 % 64 = b2 := by omega
      have hw4 : 128 + ((b - 240) * 262144 + (b1 - 128) * 4096 + (b2 - 128) * 64 +
          (b3 - 128)) % 64 = b3 := by omega
      simp only [utf8Encode, utf8EncodeChar, if_neg he1, if_neg he2, if_neg he3,
        hw1, hw2, hw3, hw4, ihr]
      rfl
    · rw [utf8Decode_ge245 b bs h1 h2 h3 h4 h5] at h; simp at h

theorem utf8_enc_dec (bs : List Nat) (cps : List Nat) (h : utf8Decode bs = some cps) :
    utf8Encode cps = bs :=
  utf8_enc_dec_aux bs.length bs le_rfl cps h

theorem findSeg_characterization : ∀ l : Str,
    (∀ s, findSeg l = some s →
      ∃ i, matchAt l i = true ∧ (∀ j, j < i → matchAt l j = false) ∧
        s = (l.drop (i + 3)).takeWhile b64UrlChar) ∧
    (findSeg l = none → ∀ i, matchAt l i = false) := by
  intro l
  induction l with
  | nil =>
    constructor
    · intro s hs; exact absurd hs (by simp [findSeg])
    · intro _ i
      simp [matchAt, headMatch]
  | cons x xs ih =>
    by_cases hm : headMatch (x :: xs) = true
    · constructor
      · intro s hs
        refine ⟨0, ?_, ?_, ?_⟩
        · simpa [matchAt] using hm
        · intro j hj; omega
        · have hs' : s = (xs.drop 2).takeWhile b64UrlChar := by
            have : findSeg (x :: xs) = some ((xs.drop 2).takeWhile b64UrlChar) := by
              simp [findSeg, hm]
            rw [this] at hs
            exact (Option.some.inj hs).symm
          rw [hs']
          rfl
      · intro hn
        have : findSeg (x :: xs) = some ((xs.drop 2).takeWhile b64UrlChar) := by
          simp [findSeg, hm]
        rw [this] at hn
        exact Option.noConfusion hn
    · have hstep : findSeg (x :: xs) = findSeg xs := by
        simp [findSeg, hm]
      constructor
      · intro s hs
        rw [hstep] at hs
        rcases ih.1 s hs with ⟨i, hi, hj, hseg⟩
        refine ⟨i + 1, ?_, ?_, ?_⟩
        · simpa [matchAt] using hi
        · intro j hjlt
          rcases j with _ | j
          · simpa [matchAt] using hm
          · have : j < i := by omega
            simpa [matchAt] using hj j this
        · rw [hseg]
          rfl
      · intro hn i
        rw [hstep] at hn
        rcases i with _ | i
        · simpa [matchAt] using hm
        · simpa [matchAt] using ih.2 hn i

/- ### Folder-namer claims -/

/-- Claim C2 (counterexample): the spec's example is wrong — spaces are not in
the replacement class `<>:"/\|?*`, so `get_folder_name("Week 1: Intro", "")`
yields `"Week 1_ Intro"`, not `"Week_1__Intro"`. -/
theorem get_folder_name_colon_example_ne :
    get_folder_name_from_title (some (("Week 1: Intro").toList)) ([]) ≠ ("Week_1__Intro").toList := by
  decide

/-- Claim C2 (amended): for every parent title that is non-empty after
trimming, the result is the trimmed title with every character among
`<>:"/\|?*` (and only those — spaces are kept) replaced by `_`; the result
contains no such illegal character; and the spec's example actually yields
`"Week 1_ Intro"`. -/
theorem get_folder_name_sanitizes (t : Str) (fn : Str) (h : pyStrip t ≠ []) :
    get_folder_name_from_title (some t) fn = (pyStrip t).map sanitizeChar ∧
    (∀ c ∈ get_folder_name_from_title (some t) fn, illegalFsChar c = false) ∧
    get_folder_name_from_title (some (("Week 1: Intro").toList)) ([]) = ("Week 1_ Intro").toList := by
  have he : get_folder_name_from_title (some t) fn = (pyStrip t).map sanitizeChar := by
    simp [get_folder_name_from_title, h]
  refine ⟨he, ?_, by decide⟩
  intro c hc
  rw [he] at hc
  rcases List.mem_map.mp hc with ⟨a, _, ha⟩
  by_cases hia : illegalFsChar a = true
  · have : c = '_' := by rw [← ha]; simp [sanitizeChar, hia]
    rw [this]; decide
  · have hiaf : illegalFsChar a = false := by
      cases hb : illegalFsChar a
      · rfl
      · exact absurd hb hia
    have : c = a := by rw [← ha]; simp [sanitizeChar, hiaf]
    rw [this]; exact hiaf

theorem get_folder_name_sanitizes_witness :
    pyStrip (("A:B").toList) ≠ [] ∧
    (get_folder_name_from_title (some (("A:B").toList)) ([]) = (pyStrip (("A:B").toList)).map sanitizeChar ∧
     (∀ c ∈ get_folder_name_from_title (some (("A:B").toList)) ([]), illegalFsChar c = false) ∧
     get_folder_name_from_title (some (("Week 1: Intro").toList)) ([]) = ("Week 1_ Intro").toList) :=
  ⟨by decide, get_folder_name_sanitizes (("A:B").toList) ([]) (by decide)⟩

/-- Claim C5: with an empty-after-trimming parent title, if the trimmed
filename starts with a nonempty digit run immediately followed by a dot the
result is `"Module " ++ digits`; in every other case it is
`"Other_Materials"`; in particular the two examples of the spec hold. -/
theorem get_folder_name_fallback (pt fn : Str) (h : pyStrip pt = []) :
    (∀ ds rest, pyStrip fn = ds ++ '.' :: rest → ds ≠ [] → (∀ c ∈ ds, Char.isDigit c = true) →
       get_folder_name_from_title (some pt) fn = ("Module ").toList ++ ds) ∧
    ((¬ ∃ ds rest, pyStrip fn = ds ++ '.' :: rest ∧ ds ≠ [] ∧ ∀ c ∈ ds, Char.isDigit c = true) →
       get_folder_name_from_title (some pt) fn = ("Other_Materials").toList) ∧
    get_folder_name_from_title (some ([])) (("3.2 Scheduling.pdf").toList) = ("Module 3").toList ∧
    get_folder_name_from_title (some ([])) ([]) = ("Other_Materials").toList := by
  have hbase : get_folder_name_from_title (some pt) fn = folderFromFileName fn := by
    simp [get_folder_name_from_title, h]
  refine ⟨?_, ?_, by decide, by decide⟩
  · intro ds rest hd hne hdig
    have hdot : Char.isDigit ('.') = false := by decide
    have hfn : fn ≠ [] := by
      intro hfe
      rw [hfe] at hd
      have : ([] : Str) = ds ++ '.' :: rest := hd
      rcases List.append_eq_nil.mp this.symm with ⟨_, h2⟩
      exact List.noConfusion h2
    have hstr : pyStrip fn ≠ [] := by
      rw [hd]; intro hcon
      rcases List.append_eq_nil.mp hcon with ⟨_, h2⟩
      exact List.noConfusion h2
    have htake : (pyStrip fn).takeWhile Char.isDigit = ds := by
      rw [hd]; exact takeWhile_all_append _ _ _ _ hdig hdot
    have hdrop : (pyStrip fn).dropWhile Char.isDigit = '.' :: rest := by
      rw [hd]; exact dropWhile_all_append _ _ _ _ hdig hdot
    have hmod : moduleOfFileName fn = some ds := by
      simp only [moduleOfFileName, htake, hdrop]
      rw [if_pos ⟨hne, rfl⟩]
    rw [hbase]
    simp only [folderFromFileName]
    rw [if_pos ⟨hfn, hstr⟩, hmod]
  · intro hno
    rw [hbase]
    simp only [folderFromFileName]
    by_cases hfn : fn ≠ [] ∧ pyStrip fn ≠ []
    · rw [if_pos hfn]
      have hmod : moduleOfFileName fn = none := by
        by_contra hcon
        rcases Option.ne_none_iff_exists'.mp hcon with ⟨ds, hds⟩
        simp only [moduleOfFileName] at hds
        by_cases hg : (pyStrip fn).takeWhile Char.isDigit ≠ [] ∧
            ((pyStrip fn).dropWhile Char.isDigit).head? = some ('.')
        · rw [if_pos hg] at hds
          have hds' : (pyStrip fn).takeWhile Char.isDigit = ds := Option.some.inj hds
          rcases hg with ⟨hne, hhd⟩
          rcases hlist : (pyStrip fn).dropWhile Char.isDigit with _ | ⟨c, cs⟩
          · rw [hlist] at hhd; simp at hhd
          · rw [hlist] at hhd
            have hc : c = '.' := by simpa using hhd
            apply hno
            refine ⟨ds, cs, ?_, hds' ▸ hne, ?_⟩
            · rw [← hds', ← hc, ← hlist]
              exact (List.takeWhile_append_dropWhile Char.isDigit (pyStrip fn)).symm
            · intro x hx
              exact mem_takeWhile_sat Char.isDigit (pyStrip fn) x (hds' ▸ hx)
        · rw [if_neg hg] at hds
          exact Option.noConfusion hds
      rw [hmod]
    · rw [if_neg hfn]

theorem get_folder_name_fallback_witness :
    get_folder_name_from_title (some ([])) (("3.2 Scheduling.pdf").toList) = ("Module 3").toList :=
  (get_folder_name_fallback ([]) (("3.2 Scheduling.pdf").toList) (by decide)).1
    (("3").toList) (("2 Scheduling.pdf").toList) (by decide) (by decide) (by decide)

/- ### Link-decoder claims -/

/-- Claim C9: `extract_course_id` extracts exactly the first maximal run of
characters from `[A-Za-z0-9_-]` following `/c/`: if a segment is found it
consists only of class characters and equals the maximal class run after the
leftmost `/c/` that is followed by a class character; if no segment is found,
no position matches; and `'+'`, `'/'`, `'='` are not class characters, so they
can never be part of the text handed to the base64 decoder. -/
theorem extract_segment_first_maximal_run (l : Str) :
    (∀ s, findSeg l = some s →
      (∀ c ∈ s, b64UrlChar c = true) ∧
      ∃ i, matchAt l i = true ∧ (∀ j, j < i → matchAt l j = false) ∧
        s = (l.drop (i + 3)).takeWhile b64UrlChar) ∧
    (findSeg l = none → ∀ i, matchAt l i = false) ∧
    b64UrlChar ('+') = false ∧ b64UrlChar ('/') = false ∧ b64UrlChar ('=') = false := by
  refine ⟨?_, (findSeg_characterization l).2, by decide, by decide, by decide⟩
  intro s hs
  refine ⟨?_, (findSeg_characterization l).1 s hs⟩
  intro c hc
  rcases (findSeg_characterization l).1 s hs with ⟨i, _, _, hseg⟩
  exact mem_takeWhile_sat b64UrlChar _ c (hseg ▸ hc)

theorem extract_segment_first_maximal_run_witness :
    (∀ c ∈ ("Ab-9").toList, b64UrlChar c = true) ∧
    ∃ i, matchAt (("x/c/Ab-9=e").toList) i = true ∧
      (∀ j, j < i → matchAt (("x/c/Ab-9=e").toList) j = false) ∧
      ("Ab-9").toList = ((("x/c/Ab-9=e").toList).drop (i + 3)).takeWhile b64UrlChar :=
  (extract_segment_first_maximal_run (("x/c/Ab-9=e").toList)).1 (("Ab-9").toList) (by decide)

/-- Claim C1 (counterexample): for the link "/c/" followed by a lone dash,
the captured segment (the dash) is not valid standard base64, yet
`extract_course_id` returns the empty string instead of failing with a decode
error, because Python's `base64.b64decode` silently discards the characters
`-` and `_`. -/
theorem extract_course_id_dash_not_error :
    extract_course_id (("/c/-").toList) = Except.ok ([]) ∧
    extract_course_id (("/c/-").toList) ≠ Except.error LinkError.decodeError := by
  constructor
  · rfl
  · intro h
    rw [show extract_course_id (("/c/-").toList) = Except.ok ([]) from rfl] at h
    exact Except.noConfusion h

/-- Claim C1 (amended): if the link holds no `/c/<segment>` the result is
`InvalidLinkError`; otherwise the characters of the segment outside the
standard base64 alphabet (`-` and `_`) are discarded first: if the remaining
length is not a multiple of 4 the result is `DecodeError`; otherwise the
remaining text is base64-decoded (the returned bytes re-encode to exactly
that text) and then UTF-8-decoded, giving `DecodeError` on invalid UTF-8 and
otherwise the decoded string (whose UTF-8 encoding is exactly those bytes). -/
theorem extract_course_id_amended (link : Str) :
    (findSeg link = none → extract_course_id link = Except.error LinkError.invalidLink) ∧
    (∀ seg, findSeg link = some seg →
      ((seg.filter b64StdChar).length % 4 ≠ 0 →
        extract_course_id link = Except.error LinkError.decodeError) ∧
      (∀ bs, pyB64Decode seg = some bs →
        b64Encode bs = seg.filter b64StdChar ∧
        (utf8Decode bs = none → extract_course_id link = Except.error LinkError.decodeError) ∧
        (∀ cps, utf8Decode bs = some cps →
          extract_course_id link = Except.ok (cps.map Char.ofNat) ∧ utf8Encode cps = bs))) := by
  constructor
  · intro h
    simp [extract_course_id, h]
  · intro seg hseg
    constructor
    · intro hmod
      have hdec : pyB64Decode seg = none := by
        simp only [pyB64Decode]
        rw [if_neg hmod]
      simp [extract_course_id, hseg, hdec]
    · intro bs hbs
      have hmod : (seg.filter b64StdChar).length % 4 = 0 := by
        by_contra hcon
        simp only [pyB64Decode] at hbs
        rw [if_neg hcon] at hbs
        exact Option.noConfusion hbs
      have hbsq : bs = b64Quads (seg.filter b64StdChar) := by
        simp only [pyB64Decode] at hbs
        rw [if_pos hmod] at hbs
        exact (Option.some.inj hbs).symm
      refine ⟨?_, ?_, ?_⟩
      · rw [hbsq]
        exact b64Encode_quads (seg.filter b64StdChar)
          (fun c hc => List.of_mem_filter hc) hmod
      · intro hu
        simp [extract_course_id, hseg, hbs, hu]
      · intro cps hcps
        refine ⟨by simp [extract_course_id, hseg, hbs, hcps], utf8_enc_dec bs cps hcps⟩

theorem extract_course_id_amended_witness :
    extract_course_id (("/c/TWpZ").toList) = Except.ok (([77, 106, 89]).map Char.ofNat) ∧
    utf8Encode ([77, 106, 89]) = [77, 106, 89] ∧
    b64Encode ([77, 106, 89]) = (("TWpZ").toList).filter b64StdChar := by
  have h := (extract_course_id_amended (("/c/TWpZ").toList)).2 (("TWpZ").toList) (by decide)
  have h2 := h.2 ([77, 106, 89]) (by decide)
  have h3 := h2.2.2 ([77, 106, 89]) (by decide)
  exact ⟨h3.1, h3.2, h2.1⟩

/- ### Downloader claims -/

/-- Claim C3 (code bug): when directory creation fails with a permission
error (or any OS error), the matching `except` handler on lines 105-108
reads `file_path`, which line 91 has not yet assigned, so `UnboundLocalError`
escapes `download_file` instead of the failure being logged; the run is then
aborted by `main`'s top-level handler rather than continuing with the next
file.  A failure during the transfer itself, by contrast, happens after
`file_path` is bound, and is caught and logged as the claim says. -/
theorem download_file_mkdir_error_raises :
    (download_file [] (some PyExc.permissionError) none [] (("f.pdf").toList)
      (("out").toList)).raised = some PyExc.nameError ∧
    (download_file [] (some PyExc.osError) none [] (("f.pdf").toList)
      (("out").toList)).raised = some PyExc.nameError ∧
    (download_file [] none (some PyExc.osError) [] (("f.pdf").toList)
      (("out").toList)).raised = none :=
  ⟨rfl, rfl, rfl⟩

/-- Claim C4: whenever an entry already exists at `directory/filename`, the
call performs no remote transfer and the entry at that path is unchanged
afterwards. -/
theorem download_file_skip_exists (fs : FS) (mo tro : Option PyExc) (remote : List Nat)
    (fn dir : Str) (h : (FS.find fs (pathJoin dir fn)).isSome = true) :
    (download_file fs mo tro remote fn dir).transferred = false ∧
    FS.find (download_file fs mo tro remote fn dir).fs (pathJoin dir fn)
      = FS.find fs (pathJoin dir fn) := by
  cases mo with
  | some e => exact ⟨rfl, rfl⟩
  | none =>
    have hfind1 : FS.find (fsMkdir fs dir) (pathJoin dir fn) = FS.find fs (pathJoin dir fn) := by
      by_cases hdir : (FS.find fs dir).isSome
      · simp [fsMkdir, hdir]
      · have hdir' : FS.find fs dir = none := Option.not_isSome_iff_eq_none.mp hdir
        have hne : ¬ dir = pathJoin dir fn := by
          intro heq
          rw [← heq, hdir'] at h
          simp at h
        simp [fsMkdir, hdir', FS.find, hne]
    have e1 : download_file fs none tro remote fn dir =
        (if FS.find (fsMkdir fs dir) dir = some Entry.dir then
          if (FS.find (fsMkdir fs dir) (pathJoin dir fn)).isSome then
            ⟨fsMkdir fs dir, false, true, none⟩
          else
            match tro with
            | some _ => dfHandler (fsWrite (fsMkdir fs dir) (pathJoin dir fn) []) true true
            | none => ⟨fsWrite (fsMkdir fs dir) (pathJoin dir fn) remote, true, false, none⟩
        else dfHandler (fsMkdir fs dir) false false) := rfl
    have hsome : (FS.find (fsMkdir fs dir) (pathJoin dir fn)).isSome = true := by
      rw [hfind1]; exact h
    by_cases hd : FS.find (fsMkdir fs dir) dir = some Entry.dir
    · rw [e1, if_pos hd, if_pos hsome]
      exact ⟨rfl, hfind1⟩
    · rw [e1, if_neg hd]
      exact ⟨rfl, hfind1⟩

theorem download_file_skip_exists_witness :
    ((FS.find ([((("out/f.pdf").toList), Entry.file [1, 2, 3])])
        (pathJoin (("out").toList) (("f.pdf").toList))).isSome = true) ∧
    ((download_file ([((("out/f.pdf").toList), Entry.file [1, 2, 3])]) none none [9]
        (("f.pdf").toList) (("out").toList)).transferred = false ∧
      FS.find (download_file ([((("out/f.pdf").toList), Entry.file [1, 2, 3])]) none none [9]
          (("f.pdf").toList) (("out").toList)).fs
          (pathJoin (("out").toList) (("f.pdf").toList))
        = FS.find ([((("out/f.pdf").toList), Entry.file [1, 2, 3])])
            (pathJoin (("out").toList) (("f.pdf").toList))) :=
  ⟨by decide, download_file_skip_exists ([((("out/f.pdf").toList), Entry.file [1, 2, 3])])
    none none [9] (("f.pdf").toList) (("out").toList) (by decide)⟩

/-- Claim C10: the skip guard tests bare path existence (`os.path.exists`),
not regular-file-ness: when the destination path is occupied by a directory,
the download is skipped, no transfer happens, and nothing is written. -/
theorem download_file_skips_directory (fs : FS) (tro : Option PyExc) (remote : List Nat)
    (fn dir : Str) (hdir : FS.find fs dir = some Entry.dir)
    (hocc : FS.find fs (pathJoin dir fn) = some Entry.dir) :
    (download_file fs none tro remote fn dir).skipped = true ∧
    (download_file fs none tro remote fn dir).transferred = false ∧
    (download_file fs none tro remote fn dir).fs = fs := by
  have hfs1 : fsMkdir fs dir = fs := by simp [fsMkdir, hdir]
  have e1 : download_file fs none tro remote fn dir =
      (if FS.find (fsMkdir fs dir) dir = some Entry.dir then
        if (FS.find (fsMkdir fs dir) (pathJoin dir fn)).isSome then
          ⟨fsMkdir fs dir, false, true, none⟩
        else
          match tro with
          | some _ => dfHandler (fsWrite (fsMkdir fs dir) (pathJoin dir fn) []) true true
          | none => ⟨fsWrite (fsMkdir fs dir) (pathJoin dir fn) remote, true, false, none⟩
      else dfHandler (fsMkdir fs dir) false false) := rfl
  rw [e1, hfs1, if_pos hdir, if_pos (by rw [hocc]; rfl)]
  exact ⟨rfl, rfl, rfl⟩

theorem download_file_skips_directory_witness :
    (FS.find ([((("out").toList), Entry.dir), ((("out/sub").toList), Entry.dir)])
        (("out").toList) = some Entry.dir) ∧
    (FS.find ([((("out").toList), Entry.dir), ((("out/sub").toList), Entry.dir)])
        (pathJoin (("out").toList) (("sub").toList)) = some Entry.dir) ∧
    ((download_file ([((("out").toList), Entry.dir), ((("out/sub").toList), Entry.dir)])
        none none [7] (("sub").toList) (("out").toList)).skipped = true ∧
      (download_file ([((("out").toList), Entry.dir), ((("out/sub").toList), Entry.dir)])
        none none [7] (("sub").toList) (("out").toList)).transferred = false ∧
      (download_file ([((("out").toList), Entry.dir), ((("out/sub").toList), Entry.dir)])
        none none [7] (("sub").toList) (("out").toList)).fs
        = ([((("out").toList), Entry.dir), ((("out/sub").toList), Entry.dir)])) :=
  ⟨by decide, by decide,
    download_file_skips_directory
      ([((("out").toList), Entry.dir), ((("out/sub").toList), Entry.dir)])
      none [7] (("sub").toList) (("out").toList) (by decide) (by decide)⟩

/- ### Orchestrator claims -/

/-- Claim C6: for every group whose title is empty after trimming, the
coursework loop recomputes the destination folder per drive file from that
file's own filename, while the announcements loop places all drive files of
the group in the single folder computed once from the group's title with the
first material's filename as fallback. -/
theorem enumeration_folder_asymmetry (g : ItemGroup)
    (h : pyStrip (g.title.getD []) = []) :
    (∀ p ∈ courseworkAssign g, p.2 = get_folder_name_from_title none (fileName p.1)) ∧
    (∀ p ∈ announcementAssign g, p.2 = annFolder g) := by
  constructor
  · intro p hp
    unfold courseworkAssign at hp
    rcases hg : g.materials with _ | ms
    · rw [hg] at hp; simp at hp
    · rw [hg] at hp
      rcases List.mem_map.mp hp with ⟨f, _, hpf⟩
      rw [← hpf]
      simp only [cwItemFolder]
      rw [if_neg (fun hc => hc h)]
  · intro p hp
    unfold announcementAssign at hp
    rcases hg : g.materials with _ | ms
    · rw [hg] at hp; simp at hp
    · rw [hg] at hp
      rcases List.mem_map.mp hp with ⟨f, _, hpf⟩
      rw [← hpf]

theorem enumeration_folder_asymmetry_witness :
    (∀ p ∈ courseworkAssign gC6w, p.2 = get_folder_name_from_title none (fileName p.1)) ∧
    (∀ p ∈ announcementAssign gC6w, p.2 = annFolder gC6w) :=
  enumeration_folder_asymmetry gC6w (by decide)

/-- Claim C7 (counterexample): with pip available but `credentials.json`
absent and no persisted token, the process does not end in a fatal exit:
the `FileNotFoundError` raised by `authenticate` is caught by `main`'s
top-level `except Exception` handler and `main` returns normally, exactly
like any other run-aborting error. -/
theorem missing_credentials_not_fatal :
    mainModel envC7cex = MainOutcome.normal (some PyExc.fileNotFound) ∧
    mainModel envC7cex ≠ MainOutcome.sysExit 1 := by
  constructor
  · rfl
  · intro h
    rw [show mainModel envC7cex = MainOutcome.normal (some PyExc.fileNotFound) from rfl] at h
    exact MainOutcome.noConfusion h

/-- Claim C7 (amended): when `credentials.json` is absent and no valid or
refreshable persisted token exists, `authenticate` raises
`FileNotFoundError`; `main` catches it at its top level, logs it, and the
process terminates normally — not a fatal exit.  The only explicit fatal
process exit, `sys.exit(1)`, happens in `install_prerequisites` when pip is
unavailable or package installation fails. -/
theorem missing_credentials_caught (env : PyEnv)
    (hi : env.installOk = true)
    (hc : env.credentialsExists = false)
    (ht : env.tokenExists = false ∨ env.tokenValid = false)
    (hr : ¬ (env.tokenExists = true ∧ env.tokenExpired = true ∧ env.hasRefreshToken = true)) :
    authenticate env = Except.error PyExc.fileNotFound ∧
    mainModel env = MainOutcome.normal (some PyExc.fileNotFound) ∧
    (∀ n, mainModel env ≠ MainOutcome.sysExit n) ∧
    (∀ env' : PyEnv, env'.installOk = false → mainModel env' = MainOutcome.sysExit 1) := by
  have ha : authenticate env = Except.error PyExc.fileNotFound := by
    unfold authenticate
    rw [if_pos ht, if_neg hr, if_pos hc]
  have hb : mainBody env = Except.error PyExc.fileNotFound := by
    unfold mainBody
    rw [ha]
    rfl
  have hm : mainModel env = MainOutcome.normal (some PyExc.fileNotFound) := by
    unfold mainModel
    rw [if_neg (by rw [hi]; intro hcon; exact Bool.noConfusion hcon), hb]
  refine ⟨ha, hm, ?_, ?_⟩
  · intro n hcon
    rw [hm] at hcon
    exact MainOutcome.noConfusion hcon
  · intro env' hfail
    unfold mainModel
    rw [if_pos hfail]

theorem missing_credentials_caught_witness :
    envC7cex.installOk = true ∧ envC7cex.credentialsExists = false ∧
    envC7cex.tokenExists = false ∧
    (authenticate envC7cex = Except.error PyExc.fileNotFound ∧
      mainModel envC7cex = MainOutcome.normal (some PyExc.fileNotFound) ∧
      (∀ n, mainModel envC7cex ≠ MainOutcome.sysExit n) ∧
      (∀ env' : PyEnv, env'.installOk = false → mainModel env' = MainOutcome.sysExit 1)) :=
  ⟨rfl, rfl, rfl,
    missing_credentials_caught envC7cex rfl rfl (Or.inl rfl)
      (fun hcon => Bool.noConfusion hcon.1)⟩

/-- Claim C8: every exception raised inside `main`'s top-level `try` —
course resolution, output-root preparation, the enumeration loops, and the
downloads within them — is caught by the `except Exception` handler on
line 196, logged, and `main` returns normally; no such exception escapes,
and no process exit happens once `install_prerequisites` has succeeded. -/
theorem body_exceptions_caught (env : PyEnv) (e : PyExc)
    (hi : env.installOk = true) (hb : mainBody env = Except.error e) :
    mainModel env = MainOutcome.normal (some e) ∧
    (∀ n, mainModel env ≠ MainOutcome.sysExit n) ∧
    (∀ x, mainModel env ≠ MainOutcome.uncaught x) := by
  have hm : mainModel env = MainOutcome.normal (some e) := by
    unfold mainModel
    rw [if_neg (by rw [hi]; intro hcon; exact Bool.noConfusion hcon), hb]
  refine ⟨hm, ?_, ?_⟩
  · intro n hcon
    rw [hm] at hcon
    exact MainOutcome.noConfusion hcon
  · intro x hcon
    rw [hm] at hcon
    exact MainOutcome.noConfusion hcon

theorem body_exceptions_caught_witness :
    envC8w.installOk = true ∧ mainBody envC8w = Except.error PyExc.httpError ∧
    (mainModel envC8w = MainOutcome.normal (some PyExc.httpError) ∧
      (∀ n, mainModel envC8w ≠ MainOutcome.sysExit n) ∧
      (∀ x, mainModel envC8w ≠ MainOutcome.uncaught x)) :=
  ⟨rfl, rfl, body_exceptions_caught envC8w PyExc.httpError rfl rfl⟩
